import Mathlib

/-!
Verification of the llm-quiz-solver repository against its natural-language
specification.  The Python sources (`app.py`, `quiz_solver.py`,
`data_processor.py`, `llm_handler.py`) are shallowly embedded below:
strings are `List Char` / `String`, Python values are the inductive `PyVal`,
Python floats are exact rationals extended with infinities and NaN (the
claims under study do not depend on IEEE rounding), and fallible code
returns `Option`/`Except`.  Effectful collaborators (the network, the
browser, the LLM, the PDF libraries) are abstracted as explicit outcome
parameters, exactly at the points where the source code performs the calls.
-/

namespace QuizSolverModel

/-! ## Character and list-of-char helpers (Python string primitives)

These model CPython `str` methods on ASCII text: `str.strip`, `str.lower`,
`str.replace`, `in` (substring / membership), `str.split('\n')`,
`str.join`, `str.endswith`.  Python's whitespace set is modelled by its six
ASCII members (space, tab, newline, carriage return, form feed, vertical
tab); `str.lower` is modelled on ASCII letters.
-/

/-- The six ASCII characters Python treats as whitespace (`str.strip`, `\s`). -/
def pyIsSpace (c : Char) : Bool :=
  c = ' ' || c = '\t' || c = '\n' || c = '\r' || c = '\x0b' || c = '\x0c'

/-- ASCII lowercasing of one character (models `str.lower` on ASCII). -/
def lowerChar (c : Char) : Char :=
  if 'A' ≤ c && c ≤ 'Z' then Char.ofNat (c.toNat + 32) else c

/-- ASCII lowercasing of a character list. -/
def lowerL (l : List Char) : List Char := l.map lowerChar

/-- Drop the trailing run of characters satisfying `p` (helper for `strip`). -/
def dropEndWhile (p : Char → Bool) (l : List Char) : List Char :=
  (l.reverse.dropWhile p).reverse

/-- Python `str.strip()`: remove leading and trailing whitespace. -/
def pyStripL (l : List Char) : List Char :=
  dropEndWhile pyIsSpace (l.dropWhile pyIsSpace)

/-- Python `str.strip()` on `String`. -/
def pyStrip (s : String) : String := ⟨pyStripL s.data⟩

/-- Remove every occurrence of the character `c` (models `str.replace(c, '')`). -/
def removeChar (c : Char) (l : List Char) : List Char :=
  l.filter (fun d => d ≠ c)

/-- Does `pat` occur as a contiguous sublist of `l`?  Models Python `pat in s`. -/
def containsSub (l pat : List Char) : Bool :=
  match l with
  | [] => pat.isEmpty
  | _ :: t => pat.isPrefixOf l || containsSub t pat

/-- Python `s.endswith(pat)`. -/
def endsWithL (l pat : List Char) : Bool := pat.isSuffixOf l

/-- Python `s.split('\n')`: split at every newline, keeping empty pieces. -/
def splitLinesL (l : List Char) : List (List Char) :=
  match l with
  | [] => [[]]
  | c :: t =>
    if c = '\n' then [] :: splitLinesL t
    else
      match splitLinesL t with
      | [] => [[c]]
      | line :: rest => (c :: line) :: rest

/-- Python `sep.join(parts)`. -/
def joinSep (sep : String) : List String → String
  | [] => ""
  | [x] => x
  | x :: y :: t => x ++ sep ++ joinSep sep (y :: t)

/-- The last element of `l` satisfying `p`, if any (what a Python loop that
keeps overwriting a variable with each match ends up holding). -/
def lastSat (p : α → Bool) : List α → Option α
  | [] => none
  | a :: t =>
    match lastSat p t with
    | some b => some b
    | none => if p a then some a else none

/-! ## Python float model

A CPython `float` is modelled as an exact rational extended with the two
infinities and NaN.  `pyFloatOfString` models the `float(str)` constructor:
optional surrounding whitespace, optional sign, then either a decimal
numeral (with CPython's rule that underscores may appear only between two
digits, an optional fractional part, an optional exponent) or one of the
words `inf`, `infinity`, `nan` (case-insensitive).  Values are kept exact
(no IEEE rounding or overflow); none of the verified claims depends on
rounding.
-/

inductive PyFloat where
  | finite (q : ℚ)
  | inf
  | negInf
  | nan
deriving DecidableEq, Repr

/-- Is `c` an ASCII digit? -/
def isDigitC (c : Char) : Bool := '0' ≤ c && c ≤ '9'

/-- Numeric value of an ASCII digit. -/
def digitVal (c : Char) : ℕ := c.toNat - '0'.toNat

/-- Greedily read a CPython digit run in which an underscore may stand only
between two digits (`digit ('_'? digit)*`), returning the digits read (with
underscores dropped) and the unconsumed rest. -/
def readRun : List Char → List Char × List Char
  | [] => ([], [])
  | [c] => if isDigitC c then ([c], []) else ([], [c])
  | c :: r1 :: rtail =>
    if isDigitC c then
      if r1 = '_' then
        match rtail with
        | [] => ([c], r1 :: rtail)
        | d :: _ =>
          if isDigitC d then
            match readRun rtail with
            | (ds, rem) => (c :: ds, rem)
          else ([c], r1 :: rtail)
      else
        match readRun (r1 :: rtail) with
        | (ds, rem) => (c :: ds, rem)
    else ([], c :: r1 :: rtail)

/-- Read a digit run as above, failing (`none`) when `l` does not start with
a digit. -/
def readDigitRun (l : List Char) : Option (List Char × List Char) :=
  match readRun l with
  | ([], _) => none
  | (ds, rest) => some (ds, rest)

/-- Natural number denoted by a digit list. -/
def natOfDigits (ds : List Char) : ℕ :=
  ds.foldl (fun acc c => 10 * acc + digitVal c) 0

/-- The exact rational `mant * 10 ^ ex`, built with core constructors so
that kernel reduction (`decide`/`rfl`) works on it. -/
def ratOfSci (mant : ℤ) (ex : ℤ) : ℚ :=
  if 0 ≤ ex then mkRat (mant * 10 ^ ex.toNat) 1 else mkRat mant (10 ^ (-ex).toNat)

/-- Parse the numeric body (after the sign) of a CPython float literal:
`digits [. digits?] | . digits`, then an optional exponent
`(e|E) sign? digits`.  Returns the exact rational value. -/
def parseFloatBody (l : List Char) : Option ℚ :=
  let core : Option ((List Char × List Char) × List Char) :=
    match readDigitRun l with
    | some (ip, rest) =>
      match rest with
      | '.' :: rest' =>
        match readDigitRun rest' with
        | some (fp, rest'') => some ((ip, fp), rest'')
        | none => some ((ip, []), rest')
      | _ => some ((ip, []), rest)
    | none =>
      match l with
      | '.' :: rest' =>
        match readDigitRun rest' with
        | some (fp, rest'') => some (([], fp), rest'')
        | none => none
      | _ => none
  match core with
  | none => none
  | some ((ip, fp), rest) =>
    let mant : ℤ := (natOfDigits (ip ++ fp) : ℤ)
    match rest with
    | [] => some (ratOfSci mant (-(fp.length : ℤ)))
    | e :: rest' =>
      if e = 'e' || e = 'E' then
        let signed : Bool × List Char :=
          match rest' with
          | '+' :: r => (false, r)
          | '-' :: r => (true, r)
          | r => (false, r)
        match readDigitRun signed.2 with
        | some (ed, []) =>
          let ex : ℤ := if signed.1 then -(natOfDigits ed : ℤ) else (natOfDigits ed : ℤ)
          some (ratOfSci mant (ex - (fp.length : ℤ)))
        | _ => none
      else none

/-- Model of CPython `float(s)`: strip whitespace, optional sign, then a
numeral or `inf`/`infinity`/`nan` (case-insensitive).  `none` models a
`ValueError`. -/
def pyFloatOfString (l : List Char) : Option PyFloat :=
  let s := pyStripL l
  let signed : Bool × List Char :=
    match s with
    | '+' :: r => (false, r)
    | '-' :: r => (true, r)
    | r => (false, r)
  let neg := signed.1
  let body := signed.2
  let low := lowerL body
  if low = "inf".data || low = "infinity".data then
    some (if neg then PyFloat.negInf else PyFloat.inf)
  else if low = "nan".data then
    some PyFloat.nan
  else
    match parseFloatBody body with
    | some q => some (PyFloat.finite (if neg then -q else q))
    | none => none

/-- Model of CPython `int(f)` on a float: truncation toward zero; raises
(`none`) on infinities and NaN. -/
def pyIntOfFloat : PyFloat → Option ℤ
  | PyFloat.finite q => some (Int.tdiv q.num q.den)
  | _ => none

/-! ## Float repr

`pyFloatRepr` models CPython `repr`/`str` of a float.  CPython prints the
shortest decimal that round-trips; for the exactly representable values
handled by the claims this is: `<digits>.0` for integral values of
magnitude below `10^16`, scientific notation `de+NN` / `d.dde+NN` for
integral values of magnitude `10^16` and above, and a plain decimal
expansion otherwise (the model prints the exact terminating expansion of
the rational; every value produced by `pyFloatOfString` has a
power-of-ten denominator, so the expansion terminates). -/

/-- The decimal digit characters of a natural number. -/
def digitsOfNat (n : ℕ) : List Char := (toString n).data

/-- Scientific notation for an integral value `n ≥ 1`, CPython style:
first digit, then the remaining digits with trailing zeros removed behind a
point, then `e+exponent`. -/
def sciRepr (n : ℕ) : List Char :=
  match digitsOfNat n with
  | [] => []
  | d :: rest =>
    let frac := dropEndWhile (fun c => c = '0') rest
    d :: (if frac.isEmpty then [] else '.' :: frac) ++
      ('e' :: '+' :: digitsOfNat rest.length)

/-- Decimal digits of the fraction `num / den` (`0 ≤ num < den`), emitted
until the expansion terminates, bounded by `fuel`. -/
def fracDigitsN : ℕ → ℕ → ℕ → List Char
  | 0, _, _ => []
  | fuel + 1, num, den =>
    if num = 0 then []
    else
      let n10 := num * 10
      Char.ofNat ('0'.toNat + n10 / den) :: fracDigitsN fuel (n10 % den) den

/-- CPython `repr` of a nonnegative finite float value (see `pyFloatRepr`). -/
def reprPosRat (q : ℚ) : List Char :=
  if q.den = 1 then
    if q.num < 10 ^ 16 then digitsOfNat q.num.toNat ++ ".0".data
    else sciRepr q.num.toNat
  else
    digitsOfNat (q.num.toNat / q.den) ++
      '.' :: fracDigitsN 1200 (q.num.toNat % q.den) q.den

/-- Model of CPython `repr(f)` (equal to `str(f)`) for a float. -/
def pyFloatRepr : PyFloat → List Char
  | PyFloat.nan => "nan".data
  | PyFloat.inf => "inf".data
  | PyFloat.negInf => "-inf".data
  | PyFloat.finite q => if q < 0 then '-' :: reprPosRat (-q) else reprPosRat q

/-! ## Python values

`PyVal` is the tagged union of the Python values the repository passes
around: `None`, booleans, ints, floats, strings, lists and (string-keyed)
dicts.  `pyStr` models `str(v)`; container elements are rendered with
`repr` as CPython does (single-quoted strings), via the fuel-bounded
`pyReprAux` (the fuel `sizeOf v` always suffices since every recursive step
descends into a structurally smaller value). -/

mutual

inductive PyVal where
  | VNone
  | VBool (b : Bool)
  | VInt (n : ℤ)
  | VFloat (f : PyFloat)
  | VStr (s : String)
  | VList (l : PyList)
  | VDict (d : PyDict)

inductive PyList where
  | nil
  | cons (v : PyVal) (t : PyList)

inductive PyDict where
  | nil
  | cons (k : String) (v : PyVal) (t : PyDict)

end

deriving instance DecidableEq for PyVal, PyList, PyDict

/-- Build a model list value from a Lean list. -/
def PyList.ofList : List PyVal → PyList
  | [] => PyList.nil
  | v :: t => PyList.cons v (PyList.ofList t)

/-- Build a model dict value from a Lean association list (Python dicts in
this program are built from literals with distinct keys, in order). -/
def PyDict.ofList : List (String × PyVal) → PyDict
  | [] => PyDict.nil
  | (k, v) :: t => PyDict.cons k v (PyDict.ofList t)

/-- A single-quoted string as CPython `repr` prints it (escaping of special
characters is not modelled; no claim depends on it). -/
def quoteStr (s : String) : List Char :=
  Char.ofNat 39 :: s.data ++ [Char.ofNat 39]

mutual

/-- Model of CPython `repr(v)`. -/
def pyReprV : PyVal → List Char
  | PyVal.VNone => "None".data
  | PyVal.VBool b => if b then "True".data else "False".data
  | PyVal.VInt n => (toString n).data
  | PyVal.VFloat f => pyFloatRepr f
  | PyVal.VStr s => quoteStr s
  | PyVal.VList l => '[' :: pyReprL l ++ [']']
  | PyVal.VDict d => '\x7b' :: pyReprD d ++ ['\x7d']

/-- `repr` of list items, joined with `", "`. -/
def pyReprL : PyList → List Char
  | PyList.nil => []
  | PyList.cons v PyList.nil => pyReprV v
  | PyList.cons v t => pyReprV v ++ ',' :: ' ' :: pyReprL t

/-- `repr` of dict entries, joined with `", "`. -/
def pyReprD : PyDict → List Char
  | PyDict.nil => []
  | PyDict.cons k v PyDict.nil => quoteStr k ++ ':' :: ' ' :: pyReprV v
  | PyDict.cons k v t => quoteStr k ++ ':' :: ' ' :: pyReprV v ++ ',' :: ' ' :: pyReprD t

end

/-- Model of CPython `str(v)`: strings unchanged, everything else as
`repr`. -/
def pyStr (v : PyVal) : List Char :=
  match v with
  | PyVal.VStr s => s.data
  | _ => pyReprV v

/-- Python truthiness of a value (`if v:` / `while v:`). -/
def pyTruthy : PyVal → Bool
  | PyVal.VNone => false
  | PyVal.VBool b => b
  | PyVal.VInt n => n ≠ 0
  | PyVal.VFloat (PyFloat.finite q) => q ≠ 0
  | PyVal.VFloat _ => true
  | PyVal.VStr s => s ≠ ""
  | PyVal.VList l => !(l matches PyList.nil)
  | PyVal.VDict d => !(d matches PyDict.nil)

/-- Python `dict.get(k)`: the value stored at key `k`, if present. -/
def dictGet (d : PyDict) (k : String) : Option PyVal :=
  match d with
  | PyDict.nil => none
  | PyDict.cons k' v t => if k' = k then some v else dictGet t k

/-! ## JSON decoding

Model of Python `json.loads` (stdlib): a recursive-descent parser for JSON
values producing `PyVal` (objects → dicts, arrays → lists, numbers → int
when written without fraction/exponent, else float; `NaN`/`Infinity`
accepted as CPython does).  The recursion over nested values is bounded by
a fuel argument; `pyJsonLoads` passes fuel exceeding any possible nesting
depth of its input. -/

/-- The four JSON whitespace characters. -/
def jsonWsChar (c : Char) : Bool :=
  c = ' ' || c = '\t' || c = '\n' || c = '\r'

/-- Skip JSON whitespace. -/
def jsonSkipWs (l : List Char) : List Char := l.dropWhile jsonWsChar

/-- The table of one-character JSON string escapes (`\x` ↦ decoded char). -/
def jsonEscPairs : List (Char × Char) :=
  [('"', '"'), ('\\', '\\'), ('/', '/'), ('b', '\x08'), ('f', '\x0c'),
   ('n', '\n'), ('r', '\r'), ('t', '\t')]

/-- Decode a one-character escape via the table. -/
def jsonEscChar (c : Char) : Option Char :=
  (jsonEscPairs.find? (fun p => p.1 = c)).map Prod.snd

/-- Value of a hexadecimal digit (upper- or lowercase). -/
def hexDigitVal (c : Char) : Option ℕ :=
  if isDigitC c then some (digitVal c)
  else
    let lc := lowerChar c
    if 'a' ≤ lc && lc ≤ 'f' then some (lc.toNat - 'a'.toNat + 10) else none

/-- Body of a JSON string after the opening quote: characters up to the
closing quote, with escapes decoded. -/
def jsonStringBody : List Char → Option (List Char × List Char)
  | [] => none
  | c :: t =>
    if c = '"' then some ([], t)
    else if c = '\\' then
      match t with
      | [] => none
      | e :: t2 =>
        if e = 'u' then
          match t2 with
          | a :: b :: c2 :: d :: t3 =>
            match hexDigitVal a, hexDigitVal b, hexDigitVal c2, hexDigitVal d with
            | some va, some vb, some vc, some vd =>
              (jsonStringBody t3).map
                (fun p => (Char.ofNat (va * 4096 + vb * 256 + vc * 16 + vd) :: p.1, p.2))
            | _, _, _, _ => none
          | _ => none
        else
          match jsonEscChar e with
          | some ec => (jsonStringBody t2).map (fun p => (ec :: p.1, p.2))
          | none => none
    else (jsonStringBody t).map (fun p => (c :: p.1, p.2))

/-- A JSON number: optional minus, integer part without leading zeros,
optional fraction, optional exponent; `VInt` when written without fraction
and exponent, else `VFloat` (exact value). -/
def jsonNumber (l : List Char) : Option (PyVal × List Char) :=
  let signed : Bool × List Char :=
    match l with
    | '-' :: t => (true, t)
    | t => (false, t)
  let neg := signed.1
  match signed.2 with
  | c :: t =>
    if isDigitC c then
      let ipRest : Option (List Char × List Char) :=
        if c = '0' then
          match t with
          | d :: _ => if isDigitC d then none else some (['0'], t)
          | [] => some (['0'], [])
        else some ((c :: t).takeWhile isDigitC, (c :: t).dropWhile isDigitC)
      match ipRest with
      | none => none
      | some (ip, rest) =>
        let fracPart : Option (List Char × List Char) :=
          match rest with
          | '.' :: r =>
            match r.takeWhile isDigitC with
            | [] => none
            | fd => some (fd, r.dropWhile isDigitC)
          | r => some ([], r)
        match fracPart with
        | none => none
        | some (fd, rest') =>
          let expPart : Option (Option (Bool × List Char) × List Char) :=
            match rest' with
            | e :: r =>
              if e = 'e' || e = 'E' then
                let se : Bool × List Char :=
                  match r with
                  | '+' :: r2 => (false, r2)
                  | '-' :: r2 => (true, r2)
                  | r2 => (false, r2)
                match se.2.takeWhile isDigitC with
                | [] => none
                | ed => some (some (se.1, ed), se.2.dropWhile isDigitC)
              else some (none, e :: r)
            | [] => some (none, [])
          match expPart with
          | none => none
          | some (ex, rest'') =>
            let mant : ℤ := (natOfDigits (ip ++ fd) : ℤ)
            let e10 : ℤ :=
              (match ex with
               | none => 0
               | some (eneg, ed) =>
                 if eneg then -(natOfDigits ed : ℤ) else (natOfDigits ed : ℤ)) -
                (fd.length : ℤ)
            let scaled : ℚ := ratOfSci mant e10
            let signedVal : ℚ := if neg then -scaled else scaled
            if fd.isEmpty && ex.isNone then
              some (PyVal.VInt (if neg then -(natOfDigits ip : ℤ) else (natOfDigits ip : ℤ)), rest'')
            else some (PyVal.VFloat (PyFloat.finite signedVal), rest'')
    else none
  | [] => none

mutual

/-- Fuel-bounded JSON value parser (see module note above). -/
def jsonVal : ℕ → List Char → Option (PyVal × List Char)
  | 0, _ => none
  | fuel + 1, input =>
    let l := jsonSkipWs input
    if "null".data.isPrefixOf l then some (PyVal.VNone, l.drop 4)
    else if "true".data.isPrefixOf l then some (PyVal.VBool true, l.drop 4)
    else if "false".data.isPrefixOf l then some (PyVal.VBool false, l.drop 5)
    else if "NaN".data.isPrefixOf l then some (PyVal.VFloat PyFloat.nan, l.drop 3)
    else if "Infinity".data.isPrefixOf l then some (PyVal.VFloat PyFloat.inf, l.drop 8)
    else if "-Infinity".data.isPrefixOf l then some (PyVal.VFloat PyFloat.negInf, l.drop 9)
    else
      match l with
      | '"' :: t => (jsonStringBody t).map (fun p => (PyVal.VStr ⟨p.1⟩, p.2))
      | '[' :: t =>
        match jsonSkipWs t with
        | ']' :: r => some (PyVal.VList PyList.nil, r)
        | r => (jsonArr fuel r).map (fun p => (PyVal.VList p.1, p.2))
      | '\x7b' :: t =>
        match jsonSkipWs t with
        | '\x7d' :: r => some (PyVal.VDict PyDict.nil, r)
        | r => (jsonObj fuel r).map (fun p => (PyVal.VDict p.1, p.2))
      | r => jsonNumber r

/-- Comma-separated JSON array items up to the closing bracket. -/
def jsonArr : ℕ → List Char → Option (PyList × List Char)
  | 0, _ => none
  | fuel + 1, l =>
    match jsonVal fuel l with
    | some (v, rest) =>
      match jsonSkipWs rest with
      | ',' :: r =>
        match jsonArr fuel r with
        | some (t, rest') => some (PyList.cons v t, rest')
        | none => none
      | ']' :: r => some (PyList.cons v PyList.nil, r)
      | _ => none
    | none => none

/-- Comma-separated JSON object entries up to the closing brace. -/
def jsonObj : ℕ → List Char → Option (PyDict × List Char)
  | 0, _ => none
  | fuel + 1, l =>
    match jsonSkipWs l with
    | '"' :: t =>
      match jsonStringBody t with
      | some (k, rest) =>
        match jsonSkipWs rest with
        | ':' :: r =>
          match jsonVal fuel r with
          | some (v, rest') =>
            match jsonSkipWs rest' with
            | ',' :: r2 =>
              match jsonObj fuel r2 with
              | some (d, rest'') => some (PyDict.cons ⟨k⟩ v d, rest'')
              | none => none
            | '\x7d' :: r2 => some (PyDict.cons ⟨k⟩ v PyDict.nil, r2)
            | _ => none
          | none => none
        | _ => none
      | none => none
    | _ => none

end

/-- Model of Python `json.loads(s)`: parse one JSON value and require only
whitespace after it; `none` models `json.JSONDecodeError`. -/
def pyJsonLoads (s : String) : Option PyVal :=
  match jsonVal (s.data.length + 2) s.data with
  | some (v, rest) => if jsonSkipWs rest = [] then some v else none
  | none => none

/-! ## `quiz_solver.py` — `QuizSolver._manual_parse`

The regex fallback parser.  `findUrls` models
`re.findall(r'https?://[^\s<>"{}|\\^`\[\]]+', text)`: a left-to-right scan
for non-overlapping maximal matches — at each position, the literal scheme
`http` + optional `s` + `://`, then one or more characters outside the
excluded class.  The scan is bounded by fuel `length text`, which always
suffices because every step consumes at least one character. -/

/-- A character allowed inside a matched URL: anything except whitespace
and the class `<>"\x7b\x7d|\\^\x60[]`. -/
def urlChar (c : Char) : Bool :=
  !(pyIsSpace c || c = '<' || c = '>' || c = '"' || c = '\x7b' || c = '\x7d' ||
    c = '|' || c = '\\' || c = '^' || c = '\x60' || c = '[' || c = ']')

/-- Try to match the URL regex at the head of `l`, returning the match and
the rest of the input. -/
def matchUrlAt (l : List Char) : Option (List Char × List Char) :=
  let scheme : Option (List Char × List Char) :=
    match l with
    | 'h' :: 't' :: 't' :: 'p' :: 's' :: ':' :: '/' :: '/' :: r => some ("https://".data, r)
    | 'h' :: 't' :: 't' :: 'p' :: ':' :: '/' :: '/' :: r => some ("http://".data, r)
    | _ => none
  match scheme with
  | some (sch, r) =>
    match r.takeWhile urlChar with
    | [] => none
    | body => some (sch ++ body, r.dropWhile urlChar)
  | none => none

/-- Fuel-bounded scan for all URL matches. -/
def findUrlsAux : ℕ → List Char → List (List Char)
  | 0, _ => []
  | _, [] => []
  | fuel + 1, c :: t =>
    match matchUrlAt (c :: t) with
    | some (url, rest) => url :: findUrlsAux fuel rest
    | none => findUrlsAux fuel t

/-- All URLs found in `text` (models the `re.findall` call). -/
def findUrls (text : String) : List String :=
  (findUrlsAux text.data.length text.data).map (fun l => (⟨l⟩ : String))

/-- `'submit' in url.lower() or 'answer' in url.lower()`. -/
def submitTest (url : String) : Bool :=
  containsSub (lowerL url.data) "submit".data || containsSub (lowerL url.data) "answer".data

/-- The recognized data extensions, in source order. -/
def dataExts : List String := [".pdf", ".csv", ".json", ".xlsx", ".xls"]

/-- `any(ext in url.lower() for ext in ['.pdf', '.csv', '.json', '.xlsx', '.xls'])`. -/
def dataTest (url : String) : Bool :=
  dataExts.any (fun e => containsSub (lowerL url.data) e.data)

/-- The result shape of `_manual_parse` (and of the LLM parse step). -/
structure ParsedQuestion where
  data_url : Option String
  task : String
  submit_url : String
  answer_format : String
deriving DecidableEq, Repr

/-- The classification loop of `_manual_parse`: for each URL in order, a
submission match overwrites `submit_url`, otherwise a data-extension match
overwrites `data_url`. -/
def classifyLoop : List String → Option String → Option String → Option String × Option String
  | [], d, s => (d, s)
  | u :: t, d, s =>
    if submitTest u then classifyLoop t d (some u)
    else if dataTest u then classifyLoop t (some u) s
    else classifyLoop t d s

/-- `QuizSolver._manual_parse` (quiz_solver.py lines 197–221). -/
def manual_parse (question_text : String) : ParsedQuestion :=
  let urls := findUrls question_text
  let ds := classifyLoop urls none none
  let submit_url : Option String :=
    match ds.2 with
    | some s => some s
    | none => urls.getLast?
  { data_url := ds.1
  , task := "Analyze the data and provide the answer as requested in the question"
  , submit_url := submit_url.getD ""
  , answer_format := "string" }

/-! ## `quiz_solver.py` — `QuizSolver._format_answer` (lines 223–244) -/

/-- `QuizSolver._format_answer`: coerce `answer` according to
`format_type`.  The `number` branch mirrors
`float(answer_str) if '.' in answer_str else int(float(answer_str))`
inside `try/except` (any failure returns `answer` unchanged). -/
def format_answer (answer : PyVal) (format_type : String) : PyVal :=
  if format_type = "number" then
    let answer_str := pyStripL (removeChar ' ' (removeChar ',' (pyStr answer)))
    match pyFloatOfString answer_str with
    | none => answer
    | some f =>
      if answer_str.contains '.' then PyVal.VFloat f
      else
        match pyIntOfFloat f with
        | some n => PyVal.VInt n
        | none => answer
  else if format_type = "boolean" then
    PyVal.VBool (["true", "1", "yes", "correct", "y"].any
      (fun w => lowerL (pyStr answer) = w.data))
  else if format_type = "object" then
    match answer with
    | PyVal.VStr s =>
      match pyJsonLoads s with
      | some j => j
      | none => PyVal.VDict (PyDict.ofList [("value", PyVal.VStr s)])
    | _ => answer
  else PyVal.VStr ⟨pyStripL (pyStr answer)⟩

/-! ## `quiz_solver.py` — `QuizSolver.submit_answer` (lines 246–267)

The outcome of `requests.post(...).raise_for_status()` + `.json()` is
abstracted as `PostOutcome`: success with a decoded JSON body, an
`HTTPError` from `raise_for_status` (a 4xx/5xx status), or any other
exception (connection error, timeout, undecodable body, …). -/

inductive PostOutcome where
  | ok (body : PyVal)
  | httpError (status : ℕ) (text : String)
  | exc (msg : String)

/-- `QuizSolver.submit_answer`: total — every exception is caught and
converted into a synthetic result dict. -/
def submit_answer (outcome : PostOutcome) : PyVal :=
  match outcome with
  | PostOutcome.ok body => body
  | PostOutcome.httpError st text =>
    PyVal.VDict (PyDict.ofList
      [ ("correct", PyVal.VBool false)
      , ("error", PyVal.VStr ("HTTP " ++ toString st))
      , ("details", PyVal.VStr text) ])
  | PostOutcome.exc msg =>
    PyVal.VDict (PyDict.ofList
      [ ("correct", PyVal.VBool false)
      , ("error", PyVal.VStr msg) ])

/-! ## `quiz_solver.py` — `QuizSolver.solve_quiz_chain` (lines 17–78)

One loop iteration fetches and solves the question (both may raise — the
`except` clause breaks out of the loop) and then submits.  What the
external world does at iteration `k` (with `question_count = k` at entry)
is abstracted as `env k`.  The loop variable `current_url` is carried as a
`PyVal` because it is whatever `response.get('url')` returned.  The loop
counter is mirrored by the fuel argument `max_questions - question_count`,
so the structural recursion coincides with the `while` bound.  Alongside
`question_count` the model returns how the loop ended: normal exit on a
falsy URL, the question cap, or the exception path. -/

inductive IterOutcome where
  | raised (msg : String)
  | submitted (post : PostOutcome)

inductive EndReason where
  | noUrl
  | capReached
  | errored
deriving DecidableEq, Repr

/-- `max_questions = 20  # Safety limit`. -/
def max_questions : ℕ := 20

/-- The `while current_url and question_count < max_questions` loop. -/
def chainLoop (env : ℕ → IterOutcome) : ℕ → PyVal → ℕ → ℕ × EndReason
  | 0, url, count => (count, if pyTruthy url then EndReason.capReached else EndReason.noUrl)
  | r + 1, url, count =>
    if pyTruthy url then
      match env count with
      | IterOutcome.raised _ => (count + 1, EndReason.errored)
      | IterOutcome.submitted post =>
        match submit_answer post with
        | PyVal.VDict d => chainLoop env r ((dictGet d "url").getD PyVal.VNone) (count + 1)
        | _ => (count + 1, EndReason.errored)
    else (count, EndReason.noUrl)

/-- `QuizSolver.solve_quiz_chain`: run the loop from `start_url` with
`question_count = 0`; the first component is the returned
`questions_solved` value. -/
def solve_quiz_chain (env : ℕ → IterOutcome) (start_url : String) : ℕ × EndReason :=
  chainLoop env max_questions (PyVal.VStr start_url) 0

/-! ## `data_processor.py` — `DataProcessor._extract_answer` (lines 157–193)

The text-cleaning pass over a raw model answer: strip, remove markdown
fences (`re.sub(r'```[a-z]*\n', '', ...)` then `.replace('```', '')`),
strip one leading answer label
(`re.sub(r'^(Answer:|Result:|The answer is:?|Final answer:?|ANSWER:)\s*',
'', ..., flags=re.IGNORECASE)` — anchored, so at most one substitution),
split into lines, scan the lines from the end for one that parses as a
float once commas and spaces are removed, falling back to the last
non-empty line, falling back to the whole stripped text. -/

/-- Is `c` a lowercase ASCII letter (the `[a-z]` class)? -/
def isLowerAlpha (c : Char) : Bool := 'a' ≤ c && c ≤ 'z'

/-- Match `` ```[a-z]*\n `` at the head of `l`, returning the rest after
the match. -/
def fenceMatchAt (l : List Char) : Option (List Char) :=
  match l with
  | '\x60' :: '\x60' :: '\x60' :: t =>
    match t.dropWhile isLowerAlpha with
    | '\n' :: r => some r
    | _ => none
  | _ => none

/-- Fuel-bounded left-to-right removal of every `` ```[a-z]*\n `` match. -/
def removeFencesAux : ℕ → List Char → List Char
  | 0, l => l
  | _, [] => []
  | fuel + 1, c :: t =>
    match fenceMatchAt (c :: t) with
    | some r => removeFencesAux fuel r
    | none => c :: removeFencesAux fuel t

/-- `re.sub(r'```[a-z]*\n', '', response)`. -/
def removeFences (l : List Char) : List Char := removeFencesAux l.length l

/-- Fuel-bounded left-to-right removal of every literal `` ``` ``. -/
def removeTicksAux : ℕ → List Char → List Char
  | 0, l => l
  | _, [] => []
  | fuel + 1, c :: t =>
    match c :: t with
    | '\x60' :: '\x60' :: '\x60' :: r => removeTicksAux fuel r
    | _ => c :: removeTicksAux fuel t

/-- `response.replace('```', '')`. -/
def removeTicks (l : List Char) : List Char := removeTicksAux l.length l

/-- Case-insensitive literal prefix match (`pat` given lowercase),
returning the rest of the input. -/
def matchCI : List Char → List Char → Option (List Char)
  | [], l => some l
  | _, [] => none
  | p :: pt, c :: ct => if lowerChar c = p then matchCI pt ct else none

/-- Consume one optional leading colon (the `:?` in two alternatives). -/
def optColon : List Char → List Char
  | ':' :: r => r
  | r => r

/-- The anchored label substitution: try the five alternatives in pattern
order (case-insensitively); on a match drop the label and the following
whitespace (`\s*`), otherwise leave the text unchanged.  The final
`ANSWER:` alternative is subsumed by the case-insensitive `Answer:`. -/
def stripAnswerLabel (l : List Char) : List Char :=
  let alt : Option (List Char) :=
    match matchCI "answer:".data l with
    | some r => some r
    | none =>
      match matchCI "result:".data l with
      | some r => some r
      | none =>
        match matchCI "the answer is".data l with
        | some r => some (optColon r)
        | none =>
          match matchCI "final answer".data l with
          | some r => some (optColon r)
          | none => none
  match alt with
  | some r => r.dropWhile pyIsSpace
  | none => l

/-- The first loop of `_extract_answer` over the reversed line list: strip
each line; for a non-empty line, if it parses as a float once commas and
spaces are removed, return that cleaned string. -/
def numScanLoop : List (List Char) → Option (List Char)
  | [] => none
  | ln :: t =>
    let line := pyStripL ln
    if line.isEmpty then numScanLoop t
    else
      let clean_num := removeChar ' ' (removeChar ',' line)
      if (pyFloatOfString clean_num).isSome then some clean_num else numScanLoop t

/-- The second loop of `_extract_answer`: the last line with non-empty
strip, stripped. -/
def lastNonEmptyLoop : List (List Char) → Option (List Char)
  | [] => none
  | ln :: t =>
    let s := pyStripL ln
    if s.isEmpty then lastNonEmptyLoop t else some s

/-- `DataProcessor._extract_answer`. -/
def extract_answer (llm_response : String) : String :=
  let response := pyStripL llm_response.data
  let response := removeTicks (removeFences response)
  let response := stripAnswerLabel response
  let lines := splitLinesL response
  match numScanLoop lines.reverse with
  | some c => ⟨c⟩
  | none =>
    match lastNonEmptyLoop lines.reverse with
    | some l => ⟨l⟩
    | none => ⟨pyStripL response⟩

/-! ## `data_processor.py` — `DataProcessor.extract_pdf_data` (lines 41–90)

A PDF as pdfplumber presents it: a list of pages, each with an optional
text (`page.extract_text()` may return `None` or an empty string) and a
list of tables, each table a list of rows of optional-string cells.
`mkDataFrame` models `pandas.DataFrame(data_rows, columns=headers)`, which
raises `ValueError` when the width of the passed data disagrees with the
number of column labels.  The pdfplumber phase is abstracted as either
completing over the page list or raising after processing a prefix of it
(in which case the text accumulated so far is kept and the PyPDF2 fallback
appends its page texts); `pypdfTexts` carries the page texts the fallback
managed to extract, in order (empty when it too failed immediately). -/

/-- One extracted table cell (`None` or a string). -/
abbrev Cell := Option String

/-- The tabular result of `pandas.DataFrame(data_rows, columns=headers)`. -/
structure DataFrame where
  columns : List Cell
  rows : List (List Cell)
deriving DecidableEq, Repr

/-- `pandas.DataFrame(data_rows, columns=headers)`: fails when the data is
nonempty and its width (the longest row) differs from the header count. -/
def mkDataFrame (headers : List Cell) (rows : List (List Cell)) : Except String DataFrame :=
  let width := (rows.map List.length).foldl max 0
  if !rows.isEmpty && width ≠ headers.length then
    Except.error "columns passed, passed data had different width"
  else Except.ok ⟨headers, rows⟩

/-- One entry of the `tables` accumulator of `extract_pdf_data`. -/
structure TableEntry where
  page : ℕ
  table_number : ℕ
  data : DataFrame
deriving DecidableEq, Repr

/-- The inner table loop on one page: each table with a parseable frame
contributes an entry; a `ValueError` from `pandas.DataFrame` is caught and
only skips that table. -/
def tablesOfPage (page_num : ℕ) (idx : ℕ) : List (List (List Cell)) → List TableEntry
  | [] => []
  | table :: rest =>
    let entry : List TableEntry :=
      match table with
      | [] => []
      | headers :: data_rows =>
        match mkDataFrame headers data_rows with
        | Except.ok df => [⟨page_num, idx + 1, df⟩]
        | Except.error _ => []
    entry ++ tablesOfPage page_num (idx + 1) rest

/-- One page of pdfplumber output. -/
structure PdfPage where
  text : Option String
  tables : List (List (List Cell))

/-- The page loop of the pdfplumber phase: per page, a `=== Page N ===`
text block when the extracted text is truthy, plus that page's table
entries. -/
def plumberPagesLoop (page_num : ℕ) : List PdfPage → List String × List TableEntry
  | [] => ([], [])
  | p :: rest =>
    let later := plumberPagesLoop (page_num + 1) rest
    let textPart : List String :=
      match p.text with
      | some t => if t ≠ "" then ["=== Page " ++ toString page_num ++ " ===\n" ++ t] else []
      | none => []
    (textPart ++ later.1, tablesOfPage page_num 0 p.tables ++ later.2)

/-- How the pdfplumber phase ended. -/
inductive PlumberOutcome where
  | completed (pages : List PdfPage)
  | raisedAfter (pages : List PdfPage)

/-- The PyPDF2 fallback page loop: page texts with the same delimiter,
numbering restarting at 1. -/
def pyPdfTextParts (page_num : ℕ) : List String → List String
  | [] => []
  | t :: rest =>
    (if t ≠ "" then ["=== Page " ++ toString page_num ++ " ===\n" ++ t] else []) ++
      pyPdfTextParts (page_num + 1) rest

/-- The returned `{"text": ..., "tables": ...}` mapping. -/
structure PdfData where
  text : String
  tables : List TableEntry
deriving DecidableEq, Repr

/-- `DataProcessor.extract_pdf_data`. -/
def extract_pdf_data (plumber : PlumberOutcome) (pypdfTexts : List String) : PdfData :=
  match plumber with
  | PlumberOutcome.completed pages =>
    let acc := plumberPagesLoop 1 pages
    ⟨joinSep "\n\n" acc.1, acc.2⟩
  | PlumberOutcome.raisedAfter pages =>
    let acc := plumberPagesLoop 1 pages
    ⟨joinSep "\n\n" (acc.1 ++ pyPdfTextParts 1 pypdfTexts), acc.2⟩

/-! ## `app.py` — the `/solve` endpoint (lines 17–52)

The two expected values and the Gemini key are read from the process
environment (`None` when unset).  `llm_handler_init` models
`LLMHandler.__init__` (llm_handler.py lines 9–14), which raises
`ValueError` when `GEMINI_API_KEY` is unset or empty; `QuizSolver()`
constructs an `LLMHandler` (directly and via `DataProcessor`), and this
construction happens *before* the `try` block of `solve_quiz`.  The chain
run itself is abstracted as an `Except` outcome; its exceptions are caught
by the `try`/`except` and reported as a 200 response with
`status = "error"`. -/

structure AppConfig where
  secret_string : Option String
  student_email : Option String
  gemini_api_key : Option String

/-- The request body of `POST /solve`. -/
structure QuizRequest where
  email : String
  secret : String
  url : String

/-- What the transport layer sees: a 403 `HTTPException`, a 200 JSON body
(`status` is `"success"` or `"error"`; `result` carries
`questions_solved` on success), or an exception that escaped the handler
(which FastAPI turns into a 500 response). -/
inductive EndpointResult where
  | http403 (detail : String)
  | ok200 (status : String) (message : String) (result : Option ℕ)
  | unhandled (msg : String)
deriving DecidableEq, Repr

/-- `LLMHandler.__init__`: raises `ValueError` iff the key is unset or
empty (`if not api_key`). -/
def llm_handler_init (cfg : AppConfig) : Except String Unit :=
  match cfg.gemini_api_key with
  | none => Except.error "GEMINI_API_KEY not found in environment variables"
  | some k =>
    if k = "" then Except.error "GEMINI_API_KEY not found in environment variables"
    else Except.ok ()

/-- The `/solve` handler `solve_quiz`: secret check, email check, solver
construction (outside the `try`), then the guarded chain run. -/
def solve_quiz (cfg : AppConfig) (req : QuizRequest) (chain : Except String ℕ) : EndpointResult :=
  if some req.secret ≠ cfg.secret_string then EndpointResult.http403 "Invalid secret"
  else if some req.email ≠ cfg.student_email then EndpointResult.http403 "Invalid email"
  else
    match llm_handler_init cfg with
    | Except.error e => EndpointResult.unhandled e
    | Except.ok _ =>
      match chain with
      | Except.ok n => EndpointResult.ok200 "success" "Quiz solving completed" (some n)
      | Except.error m => EndpointResult.ok200 "error" m none

/-! ## Claim-side characterizations

Small combinators used to state the claims' descriptions of the loops
above (scan-from-the-end, last-match-wins) so the theorems can equate the
source-shaped loops with the spec's formulations. -/

/-- `optOr a b`: `a` when it is `some`, else `b`. -/
def optOr (a b : Option α) : Option α :=
  match a with
  | some x => some x
  | none => b

/-- The per-line test of the numeric scan as the claim describes it: a
non-empty (after stripping) line that, once commas and spaces are removed,
parses as a float, yields that cleaned string. -/
def numCheck (ln : List Char) : Option (List Char) :=
  let t := pyStripL ln
  if t.isEmpty then none
  else
    let c := removeChar ' ' (removeChar ',' t)
    if (pyFloatOfString c).isSome then some c else none

/-- The per-line test of the fallback scan: a non-empty (after stripping)
line yields its stripped form. -/
def lineCheck (ln : List Char) : Option (List Char) :=
  let t := pyStripL ln
  if t.isEmpty then none else some t

/-- The claim's data-source test for one URL in the fallback parser: it
bears a data extension and is not a submission match. -/
def dataOnlyTest (u : String) : Bool :=
  dataTest u && !submitTest u

/-- Step `k` of a chain run submits successfully and the submission
response is a dict that includes a non-empty string `url` field. -/
def goodStep (env : ℕ → IterOutcome) (k : ℕ) : Prop :=
  ∃ d u, env k = IterOutcome.submitted (PostOutcome.ok (PyVal.VDict d)) ∧
    dictGet d "url" = some (PyVal.VStr u) ∧ u ≠ ""

/-! ## Helper lemmas -/

theorem optOr_some (a : α) (b : Option α) : optOr (some a) b = some a := rfl

theorem optOr_none (b : Option α) : optOr none b = b := rfl

theorem optOr_none_right (a : Option α) : optOr a none = a := by
  cases a <;> rfl

theorem optOr_assoc (a b c : Option α) : optOr (optOr a b) c = optOr a (optOr b c) := by
  cases a <;> rfl

theorem lastSat_nil (p : α → Bool) : lastSat p [] = none := rfl

theorem lastSat_cons (p : α → Bool) (u : α) (t : List α) :
    lastSat p (u :: t) = optOr (lastSat p t) (if p u then some u else none) := by
  cases h : lastSat p t <;> simp [lastSat, h, optOr]

theorem lastSat_eq_some {p : α → Bool} {l : List α} {a : α}
    (h : lastSat p l = some a) : p a = true := by
  induction l with
  | nil => exact absurd h (by simp [lastSat])
  | cons u t ih =>
    rw [lastSat_cons] at h
    cases ht : lastSat p t with
    | some b => rw [ht, optOr_some] at h; exact ih (ht.trans (congrArg some (Option.some.inj h)))
    | none =>
      rw [ht, optOr_none] at h
      by_cases hp : p u = true
      · simp [hp] at h; exact h ▸ hp
      · simp [Bool.not_eq_true _ ▸ hp] at h

theorem classifyLoop_char (l : List String) (d s : Option String) :
    classifyLoop l d s =
      (optOr (lastSat dataOnlyTest l) d, optOr (lastSat submitTest l) s) := by
  induction l generalizing d s with
  | nil => simp [classifyLoop, lastSat_nil, optOr_none]
  | cons u t ih =>
    rw [lastSat_cons, lastSat_cons]
    by_cases hsub : submitTest u
    · have hd : dataOnlyTest u = false := by simp [dataOnlyTest, hsub]
      have hc : classifyLoop (u :: t) d s = classifyLoop t d (some u) := by
        simp [classifyLoop, hsub]
      rw [hd, hsub, hc, ih]
      cases lastSat dataOnlyTest t <;> cases lastSat submitTest t <;> rfl
    · have hsub' : submitTest u = false := by simpa using hsub
      by_cases hdata : dataTest u
      · have hd : dataOnlyTest u = true := by simp [dataOnlyTest, hsub', hdata]
        have hc : classifyLoop (u :: t) d s = classifyLoop t (some u) s := by
          simp [classifyLoop, hsub', hdata]
        rw [hd, hsub', hc, ih]
        cases lastSat dataOnlyTest t <;> cases lastSat submitTest t <;> rfl
      · have hdata' : dataTest u = false := by simpa using hdata
        have hd : dataOnlyTest u = false := by simp [dataOnlyTest, hdata']
        have hc : classifyLoop (u :: t) d s = classifyLoop t d s := by
          simp [classifyLoop, hsub', hdata']
        rw [hd, hsub', hc, ih]
        cases lastSat dataOnlyTest t <;> cases lastSat submitTest t <;> rfl

theorem manual_parse_data_url_char (t : String) :
    (manual_parse t).data_url = lastSat dataOnlyTest (findUrls t) := by
  simp [manual_parse, classifyLoop_char, optOr_none_right]

theorem manual_parse_submit_url_char (t : String) (u : String)
    (h : lastSat submitTest (findUrls t) = some u) :
    (manual_parse t).submit_url = u := by
  simp [manual_parse, classifyLoop_char, optOr_none_right, h, optOr_some]

theorem numScanLoop_eq_findSome (l : List (List Char)) :
    numScanLoop l = l.findSome? numCheck := by
  induction l with
  | nil => rfl
  | cons ln t ih =>
    simp only [numScanLoop, List.findSome?, numCheck]
    by_cases he : (pyStripL ln).isEmpty
    · simp [he, ih]
    · have he' : (pyStripL ln).isEmpty = false := by simpa using he
      by_cases hp : (pyFloatOfString (removeChar ' ' (removeChar ',' (pyStripL ln)))).isSome
      · simp [he', hp]
      · have hp' : (pyFloatOfString (removeChar ' ' (removeChar ',' (pyStripL ln)))).isSome = false := by
          simpa using hp
        simp [he', hp', ih]

theorem lastNonEmptyLoop_eq_findSome (l : List (List Char)) :
    lastNonEmptyLoop l = l.findSome? lineCheck := by
  induction l with
  | nil => rfl
  | cons ln t ih =>
    simp only [lastNonEmptyLoop, List.findSome?, lineCheck]
    by_cases he : (pyStripL ln).isEmpty
    · simp [he, ih]
    · have he' : (pyStripL ln).isEmpty = false := by simpa using he
      simp [he']

theorem dropWhile_head_false {p : Char → Bool} {l : List Char} {a : Char} {t : List Char}
    (h : l.dropWhile p = a :: t) : p a = false := by
  induction l with
  | nil => exact absurd h (by simp)
  | cons c l' ih =>
    by_cases hp : p c
    · rw [List.dropWhile_cons_of_pos hp] at h; exact ih h
    · rw [List.dropWhile_cons_of_neg hp] at h
      cases h
      simpa using hp

theorem dropWhile_idem (p : Char → Bool) (l : List Char) :
    (l.dropWhile p).dropWhile p = l.dropWhile p := by
  cases h : l.dropWhile p with
  | nil => rfl
  | cons a t =>
    have := dropWhile_head_false h
    simp [List.dropWhile, this]

theorem dropWhile_append_last {p : Char → Bool} {a : Char} (h : p a = false)
    (xs : List Char) : ∃ s, (xs ++ [a]).dropWhile p = s ++ [a] := by
  induction xs with
  | nil => exact ⟨[], by simp [List.dropWhile, h]⟩
  | cons x t ih =>
    by_cases hx : p x
    · simpa [List.dropWhile_cons_of_pos hx] using ih
    · exact ⟨x :: t, by simp [List.dropWhile_cons_of_neg hx]⟩

theorem dropWhile_of_dropEndWhile {p : Char → Bool} {l : List Char}
    (h : l.dropWhile p = l) : (dropEndWhile p l).dropWhile p = dropEndWhile p l := by
  cases hl : l with
  | nil => rfl
  | cons a t =>
    have ha : p a = false := by
      subst hl
      exact dropWhile_head_false h
    subst hl
    obtain ⟨s, hs⟩ := dropWhile_append_last ha t.reverse
    have hrev : (a :: t).reverse = t.reverse ++ [a] := by simp
    rw [dropEndWhile, hrev, hs]
    simp [List.dropWhile, ha]

theorem pyStripL_fixed (l : List Char) : (pyStripL l).dropWhile pyIsSpace = pyStripL l := by
  rw [pyStripL]
  exact dropWhile_of_dropEndWhile (dropWhile_idem _ _)

theorem dropEndWhile_idem (p : Char → Bool) (l : List Char) :
    dropEndWhile p (dropEndWhile p l) = dropEndWhile p l := by
  simp [dropEndWhile, dropWhile_idem]

theorem pyStripL_idem (l : List Char) : pyStripL (pyStripL l) = pyStripL l := by
  conv_lhs => rw [pyStripL, pyStripL_fixed]
  rw [pyStripL, dropEndWhile_idem]

theorem chainLoop_count_le (env : ℕ → IterOutcome) :
    ∀ (r count : ℕ) (url : PyVal), (chainLoop env r url count).1 ≤ count + r := by
  intro r
  induction r with
  | zero => intro count url; simp [chainLoop]
  | succ r ih =>
    intro count url
    cases ht : pyTruthy url with
    | false => simp [chainLoop, ht]
    | true =>
      cases he : env count with
      | raised m => simp [chainLoop, ht, he]
      | submitted post =>
        cases hs : submit_answer post with
        | VDict d =>
          have h2 := ih (count + 1) ((dictGet d "url").getD PyVal.VNone)
          simp only [chainLoop, ht, if_true, he, hs]
          omega
        | VNone => simp [chainLoop, ht, he, hs]
        | VBool b => simp [chainLoop, ht, he, hs]
        | VInt n => simp [chainLoop, ht, he, hs]
        | VFloat f => simp [chainLoop, ht, he, hs]
        | VStr s => simp [chainLoop, ht, he, hs]
        | VList l => simp [chainLoop, ht, he, hs]

theorem chainLoop_all_good (env : ℕ → IterOutcome) :
    ∀ (r count : ℕ) (url : PyVal),
      (∀ k, count ≤ k → k < count + r → goodStep env k) → pyTruthy url = true →
      (chainLoop env r url count).1 = count + r := by
  intro r
  induction r with
  | zero => intro count url _ ht; simp [chainLoop, ht]
  | succ r ih =>
    intro count url hall ht
    obtain ⟨d, u, he, hd, hu⟩ := hall count (Nat.le_refl _) (by omega)
    have hnext : pyTruthy ((dictGet d "url").getD PyVal.VNone) = true := by
      rw [hd]
      exact decide_eq_true hu
    have hrec := ih (count + 1) ((dictGet d "url").getD PyVal.VNone)
      (fun k h1 h2 => hall k (by omega) (by omega)) hnext
    have harm : chainLoop env (r + 1) url count =
        chainLoop env r ((dictGet d "url").getD PyVal.VNone) (count + 1) := by
      simp [chainLoop, ht, he, submit_answer]
    rw [harm, hrec]
    omega

/-- C1: in every chain run of `solve_quiz_chain` the `questions_solved`
counter never exceeds the safety limit `max_questions = 20`; and whenever
every submission response is a dict carrying a non-empty `url` (and no
iteration raises), a run from a non-empty start URL is hard-terminated at
the bound: it ends with `questions_solved = 20`, never 21. -/
theorem chain_question_cap (env : ℕ → IterOutcome) (start_url : String) :
    (solve_quiz_chain env start_url).1 ≤ 20 ∧
    ((∀ k, k < 20 → goodStep env k) → start_url ≠ "" →
      (solve_quiz_chain env start_url).1 = 20) := by
  constructor
  · have h := chainLoop_count_le env max_questions 0 (PyVal.VStr start_url)
    simpa [solve_quiz_chain, max_questions] using h
  · intro hall hs
    have ht : pyTruthy (PyVal.VStr start_url) = true := decide_eq_true hs
    have h := chainLoop_all_good env max_questions 0 (PyVal.VStr start_url)
      (fun k _ h2 => hall k (by simpa [max_questions] using h2)) ht
    simpa [solve_quiz_chain, max_questions] using h

/-- Witness for C1: a concrete environment in which every submission
response is `{"url": "n"}` runs to exactly 20 questions. -/
theorem chain_question_cap_witness :
    (solve_quiz_chain (fun _ => IterOutcome.submitted (PostOutcome.ok
      (PyVal.VDict (PyDict.cons "url" (PyVal.VStr "n") PyDict.nil)))) "s").1 = 20 :=
  (chain_question_cap _ "s").2
    (fun _ _ => ⟨PyDict.cons "url" (PyVal.VStr "n") PyDict.nil, "n", rfl, by decide, by decide⟩)
    (by decide)

theorem chainLoop_vnone (env : ℕ → IterOutcome) (r count : ℕ) :
    chainLoop env r PyVal.VNone count = (count, EndReason.noUrl) := by
  cases r <;> simp [chainLoop, pyTruthy]

theorem chainLoop_submitted_step (env : ℕ → IterOutcome) (r count : ℕ) (url : PyVal)
    (post : PostOutcome) (ht : pyTruthy url = true)
    (he : env count = IterOutcome.submitted post) :
    chainLoop env (r + 1) url count =
      (match submit_answer post with
       | PyVal.VDict d => chainLoop env r ((dictGet d "url").getD PyVal.VNone) (count + 1)
       | _ => (count + 1, EndReason.errored)) := by
  simp [chainLoop, ht, he]

/-- C7: `submit_answer` is total over every outcome of the HTTP post: an
`HTTPError` (non-2xx status) becomes `{correct: false, error, details}`,
any other exception becomes `{correct: false, error}`, and no exception
reaches the chain driver — an iteration whose submission failed completes
normally (the question is counted) and the run then ends through the
driver's ordinary no-next-url exit, never through its exception path. -/
theorem submit_failures_graceful (st : ℕ) (text msg : String) (env : ℕ → IterOutcome)
    (r count : ℕ) (url : PyVal) (ht : pyTruthy url = true) :
    submit_answer (PostOutcome.httpError st text) =
      PyVal.VDict (PyDict.ofList
        [ ("correct", PyVal.VBool false)
        , ("error", PyVal.VStr ("HTTP " ++ toString st))
        , ("details", PyVal.VStr text) ]) ∧
    submit_answer (PostOutcome.exc msg) =
      PyVal.VDict (PyDict.ofList
        [("correct", PyVal.VBool false), ("error", PyVal.VStr msg)]) ∧
    (env count = IterOutcome.submitted (PostOutcome.httpError st text) →
      chainLoop env (r + 1) url count = (count + 1, EndReason.noUrl)) ∧
    (env count = IterOutcome.submitted (PostOutcome.exc msg) →
      chainLoop env (r + 1) url count = (count + 1, EndReason.noUrl))
    := by
  refine ⟨rfl, rfl, ?_, ?_⟩ <;> intro he
  · rw [chainLoop_submitted_step env r count url _ ht he]
    exact chainLoop_vnone env r (count + 1)
  · rw [chainLoop_submitted_step env r count url _ ht he]
    exact chainLoop_vnone env r (count + 1)

/-- Witness for C7: a run whose first (and only) submission raises a
network error still returns the normal summary `questions_solved = 1`,
ending through the no-next-url exit. -/
theorem submit_failures_graceful_witness :
    solve_quiz_chain (fun _ => IterOutcome.submitted (PostOutcome.exc "timeout")) "s" =
      (1, EndReason.noUrl) :=
  (submit_failures_graceful 0 "" "timeout"
      (fun _ => IterOutcome.submitted (PostOutcome.exc "timeout")) 19 0
      (PyVal.VStr "s") (by decide)).2.2.2 rfl

/-- C2 counterexample: with matching email and secret but `GEMINI_API_KEY`
unset, the `ValueError` raised by `LLMHandler.__init__` during
`QuizSolver()` construction — which happens *before* the `try` block —
escapes the `/solve` handler unhandled, instead of being reported as a 200
`{status: "error"}` response; so an internal error other than a
secret/email mismatch can fail the transport-level request. -/
theorem solve_quiz_key_error_escapes :
    solve_quiz ⟨some "s", some "e", none⟩ ⟨"e", "s", "u"⟩ (Except.ok 0) =
      EndpointResult.unhandled "GEMINI_API_KEY not found in environment variables" := by
  decide

/-- C2 (amended): when the Gemini API key is configured and non-empty, the
`/solve` boundary behaves as specified — a secret mismatch gives 403
`Invalid secret`, an email mismatch 403 `Invalid email`, and otherwise
every outcome of the chain run (including any exception it raises) is
reported as a 200 response, `{status: "success", ...}` on success and
`{status: "error", message}` on an exception; only the solver-construction
error escapes, and only when the key is unset or empty. -/
theorem solve_quiz_boundary_behavior (cfg : AppConfig) (req : QuizRequest)
    (chain : Except String ℕ) (k : String)
    (hk : cfg.gemini_api_key = some k) (hne : k ≠ "") :
    (some req.secret ≠ cfg.secret_string →
      solve_quiz cfg req chain = EndpointResult.http403 "Invalid secret") ∧
    (some req.secret = cfg.secret_string → some req.email ≠ cfg.student_email →
      solve_quiz cfg req chain = EndpointResult.http403 "Invalid email") ∧
    (some req.secret = cfg.secret_string → some req.email = cfg.student_email →
      solve_quiz cfg req chain =
        (match chain with
         | Except.ok n => EndpointResult.ok200 "success" "Quiz solving completed" (some n)
         | Except.error m => EndpointResult.ok200 "error" m none)) := by
  refine ⟨?_, ?_, ?_⟩
  · intro h
    simp [solve_quiz, h]
  · intro h1 h2
    simp [solve_quiz, h1, h2]
  · intro h1 h2
    simp [solve_quiz, h1, h2, llm_handler_init, hk, hne]

/-- Witness for C2 (amended): with a configured key and matching
credentials, a chain run that raises `boom` is reported as a 200
`{status: "error", message: "boom"}` response. -/
theorem solve_quiz_boundary_behavior_witness :
    solve_quiz ⟨some "s", some "e", some "g"⟩ ⟨"e", "s", "u"⟩ (Except.error "boom") =
      EndpointResult.ok200 "error" "boom" none :=
  (solve_quiz_boundary_behavior _ _ _ "g" rfl (by decide)).2.2 rfl rfl

/-- C3 counterexample: the fallback parser classifies
`http://a.com/x.csv?k=1` — whose `.csv` occurs only mid-string, before a
query string — as the data source, because the source tests
`ext in url.lower()` (substring containment), not a suffix; the URL ends
in none of the recognized extensions, refuting the claim's
"exactly when it ends in" characterization. -/
theorem manual_parse_midstring_extension_cex :
    (manual_parse "Data at http://a.com/x.csv?k=1 submit to http://a.com/submit").data_url =
      some "http://a.com/x.csv?k=1" ∧
    dataExts.all
      (fun e => !endsWithL (lowerL "http://a.com/x.csv?k=1".data) e.data) = true := by
  decide

/-- C3 (amended): in the regex fallback parser a URL is classified as the
data source exactly when its lowercased form *contains* one of
`.pdf .csv .json .xlsx .xls` as a substring and it is not a submission
match — the last such URL in text order wins (`lastSat`); an extension
occurring mid-URL therefore does qualify.  The spec's concrete example
still holds: with exactly one `.csv`-ending URL and one URL containing
`submit`, the former becomes `data_url` and the latter `submit_url`. -/
theorem manual_parse_data_url_rule (t : String) :
    (manual_parse t).data_url = lastSat dataOnlyTest (findUrls t) ∧
    (manual_parse "get https://e.com/data.csv then post https://e.com/submit ok").data_url =
      some "https://e.com/data.csv" ∧
    (manual_parse "get https://e.com/data.csv then post https://e.com/submit ok").submit_url =
      "https://e.com/submit" :=
  ⟨manual_parse_data_url_char t, by decide, by decide⟩

/-- C9: in the fallback parser the submission test takes priority over the
data-source test for each URL — a URL matching both is classified as the
submission target (`submit_url` is the last submission match) and never as
the data source (`data_url` is drawn only from URLs failing the submission
test); and for both roles the last qualifying URL in text order wins. -/
theorem manual_parse_priority (t u : String)
    (h : lastSat submitTest (findUrls t) = some u) :
    (manual_parse t).submit_url = u ∧
    (manual_parse t).data_url = lastSat dataOnlyTest (findUrls t) ∧
    (∀ w, (manual_parse t).data_url = some w →
      submitTest w = false ∧ dataTest w = true) := by
  refine ⟨manual_parse_submit_url_char t u h, manual_parse_data_url_char t, ?_⟩
  intro w hw
  rw [manual_parse_data_url_char t] at hw
  have hb := lastSat_eq_some hw
  simp only [dataOnlyTest, Bool.and_eq_true, Bool.not_eq_true'] at hb
  exact ⟨hb.2, hb.1⟩

/-- Witness for C9: both URLs match the submission test (one via `answer`,
one via `submit`) and both bear data extensions; the last one becomes the
submission target and neither becomes the data source. -/
theorem manual_parse_priority_witness :
    (manual_parse "both https://a.io/answer.csv here https://b.io/submit.pdf now").submit_url =
      "https://b.io/submit.pdf" ∧
    (manual_parse "both https://a.io/answer.csv here https://b.io/submit.pdf now").data_url =
      none := by
  constructor
  · exact (manual_parse_priority _ "https://b.io/submit.pdf" (by decide)).1
  · have h := (manual_parse_priority
      "both https://a.io/answer.csv here https://b.io/submit.pdf now"
      "https://b.io/submit.pdf" (by decide)).2.1
    rw [h]
    decide

/-- C4 counterexample: the boolean coercion does not trim — `" yes"`,
which differs from the member `"yes"` only by surrounding whitespace,
coerces to `False`, refuting the claim's "lowercased trimmed" rule. -/
theorem format_boolean_whitespace_cex :
    format_answer (PyVal.VStr " yes") "boolean" = PyVal.VBool false := by
  decide

theorem format_boolean_eq (v : PyVal) :
    format_answer v "boolean" =
      PyVal.VBool (["true", "1", "yes", "correct", "y"].any
        (fun w => lowerL (pyStr v) = w.data)) := rfl

/-- C4 (amended): boolean coercion returns true iff the lowercased — but
NOT trimmed — string form of the value is one of
`{true, 1, yes, correct, y}`; `"Yes"` coerces to true and `"no"` to
false, while a member of the set padded with surrounding whitespace
coerces to false. -/
theorem format_boolean_rule (v : PyVal) :
    (format_answer v "boolean" = PyVal.VBool true ↔
      lowerL (pyStr v) ∈ ["true", "1", "yes", "correct", "y"].map String.data) ∧
    format_answer (PyVal.VStr "Yes") "boolean" = PyVal.VBool true ∧
    format_answer (PyVal.VStr "no") "boolean" = PyVal.VBool false := by
  refine ⟨?_, by decide, by decide⟩
  have base : ∀ b : Bool, (PyVal.VBool b = PyVal.VBool true) ↔ b = true :=
    fun b => ⟨fun h => PyVal.VBool.inj h, fun h => by rw [h]⟩
  rw [format_boolean_eq v, base, List.any_eq_true]
  constructor
  · rintro ⟨w, hw, he⟩
    exact List.mem_map.mpr ⟨w, hw, (of_decide_eq_true he).symm⟩
  · intro h
    obtain ⟨w, hw, he⟩ := List.mem_map.mp h
    exact ⟨w, hw, decide_eq_true he.symm⟩

/-- C6: number coercion removes commas and spaces from the string form and
parses it as a float; it returns an integer value when the cleaned string
contains no decimal point (truncating via `int(float(...))` — which for an
infinite value fails and falls back to the input) and a float value when
it does; on parse failure the input value is returned unchanged.  `"42"`
coerces to the integer `42` and `"42.5"` to the float `42.5`. -/
theorem format_number_rule (v : PyVal) :
    format_answer v "number" =
      (let s := pyStripL (removeChar ' ' (removeChar ',' (pyStr v)))
       match pyFloatOfString s with
       | none => v
       | some f =>
         if s.contains '.' then PyVal.VFloat f
         else ((pyIntOfFloat f).map PyVal.VInt).getD v) ∧
    format_answer (PyVal.VStr "42") "number" = PyVal.VInt 42 ∧
    format_answer (PyVal.VStr "42.5") "number" = PyVal.VFloat (PyFloat.finite (mkRat 85 2)) := by
  refine ⟨?_, by decide, by decide⟩
  cases hp : pyFloatOfString (pyStripL (removeChar ' ' (removeChar ',' (pyStr v)))) with
  | none => simp [format_answer, hp]
  | some f =>
    cases hf : pyIntOfFloat f <;> simp [format_answer, hp, hf]

/-- C5: text cleaning strips whitespace, markdown fences and the fixed
leading labels, then scans the non-empty lines from the end — the first
line that, after removing commas and spaces, parses as a float is returned
as that normalized numeric string; otherwise the last non-empty line
(stripped) is returned; if every line is empty, the whole cleaned string
is returned.  In particular `"Result: \n1,234.50"` cleans to
`"1234.50"`. -/
theorem extract_answer_scan_rule (s : String) :
    extract_answer s =
      (let cleaned := stripAnswerLabel (removeTicks (removeFences (pyStripL s.data)))
       let lines := splitLinesL cleaned
       match lines.reverse.findSome? numCheck with
       | some c => (⟨c⟩ : String)
       | none =>
         match lines.reverse.findSome? lineCheck with
         | some l => (⟨l⟩ : String)
         | none => (⟨pyStripL cleaned⟩ : String)) ∧
    extract_answer "Result: \n1,234.50" = "1234.50" := by
  refine ⟨?_, by decide⟩
  simp only [extract_answer, numScanLoop_eq_findSome, lastNonEmptyLoop_eq_findSome]

/-- C8: in PDF extraction each table that fails to parse is skipped
individually while the rest of the page and document are still processed:
for a two-page PDF whose first page carries one malformed table (its
`pandas.DataFrame` construction raises) and whose second page carries one
valid table, extraction returns the delimited text of both pages and
exactly one table entry — the page-2 table — not zero. -/
theorem extract_pdf_skips_malformed (t1 t2 : String) (h1 : List Cell)
    (rows1 : List (List Cell)) (h2c : List Cell) (rows2 : List (List Cell))
    (df : DataFrame) (pypdf : List String)
    (ht1 : t1 ≠ "") (ht2 : t2 ≠ "")
    (hbad : ∃ e, mkDataFrame h1 rows1 = Except.error e)
    (hgood : mkDataFrame h2c rows2 = Except.ok df) :
    extract_pdf_data (PlumberOutcome.completed
      [⟨some t1, [h1 :: rows1]⟩, ⟨some t2, [h2c :: rows2]⟩]) pypdf =
      ⟨"=== Page 1 ===\n" ++ t1 ++ "\n\n" ++ ("=== Page 2 ===\n" ++ t2),
       [⟨2, 1, df⟩]⟩ := by
  obtain ⟨e, hm⟩ := hbad
  have e1 : (toString (1 : ℕ)) = "1" := by decide
  have e2 : (toString (2 : ℕ)) = "2" := by decide
  simp [extract_pdf_data, plumberPagesLoop, tablesOfPage, hm, hgood, ht1, ht2,
    joinSep, e1, e2]

/-- Witness for C8: a concrete two-page PDF — page 1 text `Alpha` with a
table whose data row is wider than its header row, page 2 text `Beta` with
a well-formed table — extracts both texts and exactly the page-2 table. -/
theorem extract_pdf_skips_malformed_witness :
    extract_pdf_data (PlumberOutcome.completed
      [⟨some "Alpha", [[[some "h1", some "h2"], [some "1", some "2", some "3"]]]⟩,
       ⟨some "Beta", [[[some "a", some "b"], [some "x", some "y"]]]⟩]) [] =
      ⟨"=== Page 1 ===\nAlpha\n\n=== Page 2 ===\nBeta",
       [⟨2, 1, ⟨[some "a", some "b"], [[some "x", some "y"]]⟩⟩]⟩ := by
  have h := extract_pdf_skips_malformed "Alpha" "Beta" [some "h1", some "h2"]
    [[some "1", some "2", some "3"]] [some "a", some "b"] [[some "x", some "y"]]
    ⟨[some "a", some "b"], [[some "x", some "y"]]⟩ [] (by decide) (by decide)
    ⟨"columns passed, passed data had different width", rfl⟩ rfl
  rw [h]
  decide

/-- C10 counterexample: number coercion is not idempotent — on the input
string `"10000000000000000.0"` the first application yields the float
`1e16` (the cleaned string contains a `.`), but a second application sees
`str(1e16) = "1e+16"`, which contains no `.`, and converts it to the
integer `10^16`: a different value (an int, serialized differently, where
the first application produced a float). -/
theorem format_number_not_idempotent :
    format_answer (format_answer (PyVal.VStr "10000000000000000.0") "number") "number" ≠
      format_answer (PyVal.VStr "10000000000000000.0") "number" := by
  decide

/-- C10 (amended): answer coercion is idempotent for the `boolean` and
`string` formats; it is not idempotent for `number` — there is an input
(`"10000000000000000.0"`) where the first application yields a float and
the second converts it to an integer — nor for `object`, where a JSON
string literal decodes to a bare string once and is wrapped as
`{"value": ...}` the second time. -/
theorem format_idempotence (v : PyVal) :
    format_answer (format_answer v "boolean") "boolean" = format_answer v "boolean" ∧
    format_answer (format_answer v "string") "string" = format_answer v "string" ∧
    format_answer (format_answer (PyVal.VStr "\"hi\"") "object") "object" ≠
      format_answer (PyVal.VStr "\"hi\"") "object" := by
  refine ⟨?_, ?_, by decide⟩
  · have hb : ∀ b : Bool, format_answer (PyVal.VBool b) "boolean" = PyVal.VBool b := by
      intro b
      cases b <;> decide
    exact hb _
  · show format_answer (PyVal.VStr ⟨pyStripL (pyStr v)⟩) "string" =
      PyVal.VStr ⟨pyStripL (pyStr v)⟩
    show PyVal.VStr ⟨pyStripL (pyStripL (pyStr v))⟩ = PyVal.VStr ⟨pyStripL (pyStr v)⟩
    exact congrArg (fun l => PyVal.VStr ⟨l⟩) (pyStripL_idem (pyStr v))

end QuizSolverModel
